import Mathlib

/-!
Verification development for the `gitten` terminal repository browser
(`src/utility.rs` and `src/run_app.rs`).

Shallow embedding conventions:
* A Rust panic (an `unwrap` on `None`/`Err`) is modelled as `Except.error ()`;
  a function that cannot panic keeps its plain return type.
* The `git2::Repository` handle is modelled by the record `Repo`, which holds
  the outcomes of exactly the libgit2 calls the source performs
  (`tag_names`, `branches(None)`, `head`), with each fallible step kept as
  `Except`/`Option` in the same nesting the Rust bindings expose.
* The `App` state machine lives in `app.rs`, which is not among the provided
  source files; its pieces are modelled from the spec and marked
  `Modelled from the spec:` in their doc comments.  The key dispatch itself
  (`run_app.rs`) is embedded directly from the source.
-/

/-- Prefix test on `List Char`: `lPref n h` is true when `n` is a prefix of `h`. -/
def lPref : List Char → List Char → Bool
  | [], _ => true
  | _ :: _, [] => false
  | a :: as, b :: bs => a == b && lPref as bs

/-- Substring occurrence: `lSub n h` is true when `n` occurs as a contiguous
run inside `h`. -/
def lSub (n : List Char) : List Char → Bool
  | [] => lPref n []
  | b :: bs => lPref n (b :: bs) || lSub n bs

/-- Case-sensitive substring containment on strings: does `hay` contain `needle`?
Embeds Rust `str::contains` as used by the search filter. -/
def strHas (hay needle : String) : Bool :=
  lSub needle.data hay.data

/-- Remove the last character of a string; the empty string is unchanged.
Embeds Rust `String::pop` as used on the input buffer (`app.input.pop()`). -/
def inputPop (s : String) : String :=
  String.mk s.data.dropLast

/-! ### fnmatch-style glob matching

`git2::Repository::tag_names(Some(pattern))` filters the repository's tag
names with libgit2's fnmatch-style glob matcher.  The fragment below models
the constructs that can occur in such patterns: literal characters, `?`, `*`,
and bracket character classes `[...]` with ranges and optional leading `!`
negation.  An unterminated `[` is treated as a literal `[`. -/

/-- One token of a compiled glob pattern. -/
inductive GTok where
  | lit (c : Char)
  | any
  | star
  | cls (neg : Bool) (items : List (Char × Char))
deriving DecidableEq, Repr

/-- Parse the body of a bracket class (after `[` and the optional `!`),
returning the ranges (a single character `c` becomes `(c, c)`) and the
remaining pattern after the closing `]`; `none` when the class is
unterminated. -/
def parseClassItems : List Char → Option (List (Char × Char) × List Char)
  | [] => none
  | ']' :: rest => some ([], rest)
  | a :: '-' :: b :: rest =>
    if b = ']' then
      some ([(a, a), ('-', '-')], rest)
    else
      match parseClassItems rest with
      | some (items, r) => some ((a, b) :: items, r)
      | none => none
  | a :: rest =>
    match parseClassItems rest with
    | some (items, r) => some ((a, a) :: items, r)
    | none => none

/-- Compile a glob pattern into tokens.  Structural recursion on a fuel
argument (every step consumes at least one pattern character, so fuel equal
to the pattern length is always sufficient). -/
def tokenizeF : Nat → List Char → List GTok
  | 0, _ => []
  | _ + 1, [] => []
  | f + 1, '*' :: rest => .star :: tokenizeF f rest
  | f + 1, '?' :: rest => .any :: tokenizeF f rest
  | f + 1, '[' :: '!' :: rest =>
    (match parseClassItems rest with
     | some (items, r) => .cls true items :: tokenizeF f r
     | none => .lit '[' :: tokenizeF f ('!' :: rest))
  | f + 1, '[' :: rest =>
    (match parseClassItems rest with
     | some (items, r) => .cls false items :: tokenizeF f r
     | none => .lit '[' :: tokenizeF f rest)
  | f + 1, c :: rest => .lit c :: tokenizeF f rest

/-- Compile a glob pattern into tokens. -/
def tokenize (cs : List Char) : List GTok :=
  tokenizeF cs.length cs

/-- Does one character belong to a bracket class? -/
def clsHas (items : List (Char × Char)) (c : Char) : Bool :=
  items.any (fun ab => decide (ab.1 ≤ c ∧ c ≤ ab.2))

/-- Match a compiled glob pattern against a character list.  Structural
recursion on a fuel argument (every step shrinks the pattern or the string,
so fuel above their combined length is always sufficient). -/
def gmatchF : Nat → List GTok → List Char → Bool
  | 0, _, _ => false
  | _ + 1, [], [] => true
  | _ + 1, [], _ :: _ => false
  | f + 1, .star :: tr, s =>
    gmatchF f tr s ||
      (match s with
       | [] => false
       | _ :: sr => gmatchF f (.star :: tr) sr)
  | f + 1, .any :: tr, _ :: sr => gmatchF f tr sr
  | _ + 1, .any :: _, [] => false
  | f + 1, .lit p :: tr, c :: sr => p == c && gmatchF f tr sr
  | _ + 1, .lit _ :: _, [] => false
  | f + 1, .cls neg items :: tr, c :: sr => (clsHas items c != neg) && gmatchF f tr sr
  | _ + 1, .cls _ _ :: _, [] => false

/-- fnmatch-style glob match of a pattern against a full string. -/
def fnmatch (pat s : String) : Bool :=
  let toks := tokenize pat.data
  gmatchF (toks.length + s.data.length + 1) toks s.data

/-! ### Model of the `git2::Repository` handle (`utility.rs`) -/

/-- Decidable equality for `Except` results (used to compare modelled call
outcomes). -/
instance exceptDecEq {ε α : Type} [DecidableEq ε] [DecidableEq α] :
    DecidableEq (Except ε α) := fun x y =>
  match x, y with
  | .ok a, .ok b =>
    if h : a = b then .isTrue (by rw [h]) else
      .isFalse (fun hc => h (Except.ok.inj hc))
  | .error e, .error d =>
    if h : e = d then .isTrue (by rw [h]) else
      .isFalse (fun hc => h (Except.error.inj hc))
  | .ok _, .error _ => .isFalse (fun hc => Except.noConfusion hc)
  | .error _, .ok _ => .isFalse (fun hc => Except.noConfusion hc)

/-- Model of an opened `git2::Repository`, recording the outcomes of the
libgit2 calls `utility.rs` performs on it. -/
structure Repo where
  /-- The repository's tag names; `none` models a name that is not valid
      UTF-8 (the Rust binding exposes each entry as `Option<&str>`). -/
  tagEntries : List (Option String)
  /-- Whether `tag_names` itself returns `Err`. -/
  tagNamesFails : Bool
  /-- Result of `repository.branches(None)`: `Err`, or the branch items, each
      the `Result` of iteration, containing the `Result` of `.name()`,
      containing the optional (UTF-8-valid) branch name. -/
  branchesRes : Except Unit (List (Except Unit (Except Unit (Option String))))
  /-- Result of `repository.head()` followed by `.name()`: `error` when HEAD
      resolution fails, otherwise the reference name (`none` when the name is
      not valid UTF-8). -/
  headRes : Except Unit (Option String)
deriving DecidableEq

/-- Model of `git2::Repository::tag_names(pattern)`: the tag entries, filtered
by the fnmatch glob when a pattern is given (per libgit2's documented
behaviour; an entry without a UTF-8 name cannot match a concrete pattern). -/
def Repo.tag_names (r : Repo) (pat : Option String) : Except Unit (List (Option String)) :=
  if r.tagNamesFails then .error ()
  else
    match pat with
    | none => .ok r.tagEntries
    | some p =>
      .ok (r.tagEntries.filter (fun e =>
        match e with
        | some t => fnmatch p t
        | none => false))

/-- The glob pattern `utility.rs` passes to `tag_names`. -/
def tagPattern : String := "[0-99999999].[0-99999999].[0-99999999]"

/-- Embeds `utility.rs::is_repository`, with the outcome of
`Repository::open(path)` passed in as `openRes`. -/
def is_repository (openRes : Except Unit Repo) : Bool :=
  match openRes with
  | .ok _ => true
  | .error _ => false

/-- Embeds `utility.rs::get_repository`, with the outcome of
`Repository::open(path)` passed in as `openRes`. -/
def get_repository (openRes : Except Unit Repo) : Option Repo :=
  match openRes with
  | .ok repo => some repo
  | .error _ => none

/-- Embeds `utility.rs::get_repository_tags`: iterate over the `Result` of
`tag_names` (an `Err` yields nothing), then over its entries, pushing each
entry that has a name. -/
def get_repository_tags (repository : Option Repo) : List String :=
  match repository with
  | none => []
  | some r =>
    match r.tag_names (some tagPattern) with
    | .error _ => []
    | .ok entries =>
      entries.foldl
        (fun tags x =>
          match x with
          | some tag => tags ++ [tag]
          | none => tags)
        []

/-- Embeds `utility.rs::get_repository_branches`: converts the `branches(None)`
result to an `Option`, then calls `.unwrap()` on it (a panic — `error` — when
it was `Err`), and for each item unwraps the iteration result, the `.name()`
result and the name option (each a potential panic). -/
def get_repository_branches (repository : Option Repo) : Except Unit (List String) :=
  match repository with
  | none => .ok []
  | some r =>
    let branches : Option (List (Except Unit (Except Unit (Option String)))) :=
      match r.branchesRes with
      | .ok bs => some bs
      | .error _ => none
    match branches with
    | none => .error ()
    | some bs =>
      bs.foldlM
        (fun acc b =>
          match b with
          | .error _ => .error ()
          | .ok (.error _) => .error ()
          | .ok (.ok none) => .error ()
          | .ok (.ok (some n)) => .ok (acc ++ [n]))
        []

/-- Embeds `utility.rs::get_repository_active_branch`: `head().unwrap()` then
`.name().unwrap()` (each a potential panic), then strips `refs/heads/`. -/
def get_repository_active_branch (repository : Option Repo) : Except Unit String :=
  match repository with
  | none => .ok ""
  | some r =>
    match r.headRes with
    | .error _ => .error ()
    | .ok none => .error ()
    | .ok (some n) => .ok (n.replace "refs/heads/" "")

/-! ### Rendering data (`utility.rs::convert_to_list_item` and the `ui` panels) -/

/-- Model of `tui::text::Span`: a raw styled string. -/
structure Span where
  content : String
deriving DecidableEq, Repr

/-- Model of `tui::text::Spans`: one display line. -/
structure Spans where
  spans : List Span
deriving DecidableEq, Repr

/-- Model of `tui::widgets::ListItem`: the display lines of one list row. -/
structure ListItem where
  lines : List Spans
deriving DecidableEq, Repr

/-- The single-line `ListItem` built for a displayed value. -/
def itemOf (s : String) : ListItem :=
  ⟨[⟨[⟨s⟩]⟩]⟩

/-- Embeds `utility.rs::convert_to_list_item`: iterate the vector in reverse
(`.iter().rev()`) and map each element to a one-line `ListItem` of its
`Display` rendering (`disp` embeds the `Display` instance). -/
def convert_to_list_item (disp : α → String) (v : List α) : List ListItem :=
  v.reverse.map (fun f => itemOf (disp f))

/-! ### The application state (`app.rs`, modelled from the spec) -/

/-- Modelled from the spec: the `Selection` enum of the missing `app.rs`
(§3), naming which list receives navigation keys. -/
inductive Selection where
  | Repositories
  | Branches
  | Tags
deriving DecidableEq, Repr

/-- Modelled from the spec: the `InputMode` enum of the missing `app.rs`
(§3), gating key-event routing. -/
inductive InputMode where
  | Normal
  | Editing
  | Search
  | Command
deriving DecidableEq, Repr

/-- Modelled from the spec: one scanned filesystem child with cached
repository metadata (§3, `Entry`). -/
structure Entry where
  name : String
  is_repository : Bool
  active_branch : String
  tags : List String
  branches : List String
deriving DecidableEq, Repr

/-- Modelled from the spec: `SelectableList<T>` (§3/§4.1) — an ordered list
with a single optional highlighted index. -/
structure SelectableList (α : Type) where
  items : List α
  selected : Option Nat
deriving DecidableEq, Repr

/-- Modelled from the spec (§4.1): clear the selection unconditionally. -/
def SelectableList.unselect (l : SelectableList α) : SelectableList α :=
  { l with selected := none }

/-- Modelled from the spec (§4.1): if empty, no-op; with no selection select
index 0; otherwise advance by one, wrapping to 0 past the last element. -/
def SelectableList.select_next (l : SelectableList α) : SelectableList α :=
  if l.items.isEmpty then l
  else
    match l.selected with
    | none => { l with selected := some 0 }
    | some i => { l with selected := some (if i + 1 ≥ l.items.length then 0 else i + 1) }

/-- Modelled from the spec (§4.1): symmetric to `select_next`, wrapping to
the last index from 0 (with no selection, select the last index). -/
def SelectableList.select_previous (l : SelectableList α) : SelectableList α :=
  if l.items.isEmpty then l
  else
    match l.selected with
    | none => { l with selected := some (l.items.length - 1) }
    | some i => { l with selected := some (if i = 0 then l.items.length - 1 else i - 1) }

/-- Modelled from the spec (§4.1): install new items and reset the selection. -/
def SelectableList.replaceItems (_l : SelectableList α) (items : List α) : SelectableList α :=
  { items := items, selected := none }

/-- Modelled from the spec: the `App` state of the missing `app.rs` (§3,
"Application State").  `unfiltered` is the unfiltered backing list of the
last scan that §4.5's filter recomputes from. -/
structure App where
  path : String
  repositories : SelectableList Entry
  unfiltered : List Entry
  branches : SelectableList String
  tags : SelectableList String
  logs : SelectableList String
  selection : Selection
  input_mode : InputMode
  input : String
deriving DecidableEq, Repr

/-- Placeholder entry for "nothing highlighted" (not a repository). -/
def defaultEntry : Entry :=
  { name := "", is_repository := false, active_branch := "", tags := [], branches := [] }

/-- Modelled from the spec (§4.4): refresh the branch/tag panels from the
currently highlighted repositories entry — its cached lists when it is a
repository, empty lists when it is not or nothing is highlighted. -/
def App.refresh_lists (app : App) : App :=
  match app.repositories.selected with
  | none =>
    { app with branches := app.branches.replaceItems [], tags := app.tags.replaceItems [] }
  | some i =>
    match app.repositories.items[i]? with
    | none =>
      { app with branches := app.branches.replaceItems [], tags := app.tags.replaceItems [] }
    | some e =>
      if e.is_repository then
        { app with branches := app.branches.replaceItems e.branches,
                   tags := app.tags.replaceItems e.tags }
      else
        { app with branches := app.branches.replaceItems [], tags := app.tags.replaceItems [] }

/-- Modelled from the spec (§4.2 Down): advance the list named by the current
`Selection`; for `Repositories`, additionally refresh the branch/tag panels. -/
def App.next (app : App) : App :=
  match app.selection with
  | .Repositories =>
    ({ app with repositories := app.repositories.select_next }).refresh_lists
  | .Branches => { app with branches := app.branches.select_next }
  | .Tags => { app with tags := app.tags.select_next }

/-- Modelled from the spec (§4.2 Up): retreat the list named by the current
`Selection`; for `Repositories`, additionally refresh the branch/tag panels. -/
def App.previous (app : App) : App :=
  match app.selection with
  | .Repositories =>
    ({ app with repositories := app.repositories.select_previous }).refresh_lists
  | .Branches => { app with branches := app.branches.select_previous }
  | .Tags => { app with tags := app.tags.select_previous }

/-- Modelled from the spec (§4.2 `r`/`t`/`b`): set the active `Selection`. -/
def App.change_selection (app : App) (s : Selection) : App :=
  { app with selection := s }

/-- Modelled from the spec: the highlighted repositories entry; total (§4.2 is
total, §7 "no error path"), yielding a non-repository placeholder when
nothing is highlighted. -/
def App.get_selected_repository (app : App) : Entry :=
  match app.repositories.selected with
  | some i => (app.repositories.items[i]?).getD defaultEntry
  | none => defaultEntry

/-- Modelled from the spec (§4.5): re-filter by case-sensitive substring of
the entry name against the buffer. -/
def filterEntries (l : List Entry) (buf : String) : List Entry :=
  l.filter (fun e => strHas e.name buf)

/-- Modelled from the spec (§4.5): recompute the visible repositories list
from the unfiltered backing list and the current buffer; the selection index
within the filtered view is reset on each recompute. -/
def App.search (app : App) : App :=
  { app with repositories := ⟨filterEntries app.unfiltered app.input, none⟩ }

/-- Modelled from the spec (§4.2 Esc rows): discard the buffer and return to
`Normal`. -/
def App.reset_input (app : App) : App :=
  { app with input := "", input_mode := .Normal }

/-- Modelled from the spec (§4.2 Editing/Enter): commit the buffer via the
external "process input" action (outside the state model), then return to
`Normal` with the buffer cleared. -/
def App.process_input (app : App) : App :=
  { app with input := "", input_mode := .Normal }

/-- Modelled from the spec (§4.6): run the external command against the
current path; execution is fire-and-forget and outside the state model. -/
def App.run_command_with_path (app : App) : App :=
  app

/-- Is `p` at or under the root `root` (path-prefix test)? -/
def pathUnder (p root : String) : Bool :=
  lPref root.data p.data

/-- Modelled from the spec (§4.3): on a notification at or under the current
path, re-run the scanner (its result is passed in as `scan`), replace the
repositories list, re-derive the selection by name match, and refresh the
branch/tag panels; otherwise no-op. -/
def App.update_application_content (app : App) (scan : List Entry) (p : String) : App :=
  if pathUnder p app.path then
    let oldName : Option String :=
      match app.repositories.selected with
      | some i => (app.repositories.items[i]?).map (fun e => e.name)
      | none => none
    let sel := oldName.bind (fun n => scan.findIdx? (fun e => e.name == n))
    ({ app with unfiltered := scan, repositories := ⟨scan, sel⟩ }).refresh_lists
  else app

/-! ### Key dispatch (`run_app.rs` lines 52–121) -/

/-- Model of `crossterm::event::KeyCode`, restricted to the variants the
dispatcher distinguishes; `other` stands for every remaining key. -/
inductive KeyCode where
  | char (c : Char)
  | left
  | down
  | up
  | enter
  | esc
  | backspace
  | other
deriving DecidableEq, Repr

/-- Outcome of one key dispatch: `quit` embeds `return Ok(())` (application
terminates), `cont` continues with the new state. -/
inductive KeyResult where
  | quit
  | cont (app : App)
deriving DecidableEq, Repr

/-- Embeds the `match app.input_mode` key dispatcher of `run_app.rs`
(lines 53–121), arm by arm. -/
def handleKey (key : KeyCode) (app : App) : KeyResult :=
  match app.input_mode with
  | .Normal =>
    match key with
    | .char 'q' => .quit
    | .left => .cont { app with repositories := app.repositories.unselect }
    | .down => .cont app.next
    | .up => .cont app.previous
    | .char 'r' => .cont (app.change_selection .Repositories)
    | .char 't' => .cont (app.change_selection .Tags)
    | .char 'b' => .cont (app.change_selection .Branches)
    | .char ':' =>
      .cont (if app.get_selected_repository.is_repository
             then { app with input_mode := .Editing } else app)
    | .char '/' => .cont { app with input_mode := .Search }
    | .char '$' =>
      .cont (if app.selection = .Repositories
             then { app with input_mode := .Command } else app)
    | _ => .cont app
  | .Editing =>
    match key with
    | .char c => .cont { app with input := app.input.push c }
    | .backspace => .cont { app with input := inputPop app.input }
    | .enter => .cont app.process_input
    | .esc => .cont app.reset_input
    | _ => .cont app
  | .Search =>
    match key with
    | .char c => .cont ({ app with input := app.input.push c }).search
    | .backspace => .cont { app with input := inputPop app.input }
    | .enter => .cont app.reset_input
    | .esc => .cont app.reset_input
    | _ => .cont app
  | .Command =>
    match key with
    | .char c => .cont { app with input := app.input.push c }
    | .backspace => .cont { app with input := inputPop app.input }
    | .enter => .cont app.run_command_with_path.reset_input
    | .esc => .cont app.reset_input
    | _ => .cont app

/-- The `(mode, key)` pairs that appear as explicit arms in the dispatcher
(everything else falls into a catch-all arm). -/
def listedKey : InputMode → KeyCode → Bool
  | .Normal, .char c =>
    c == 'q' || c == 'r' || c == 't' || c == 'b' || c == ':' || c == '/' || c == '$'
  | .Normal, .left => true
  | .Normal, .down => true
  | .Normal, .up => true
  | .Normal, _ => false
  | _, .char _ => true
  | _, .backspace => true
  | _, .enter => true
  | _, .esc => true
  | _, _ => false

/-- Fold a key sequence through the dispatcher (a `quit` outcome stops
changing the state). -/
def applyKeys (keys : List KeyCode) (app : App) : App :=
  keys.foldl
    (fun a k =>
      match handleKey k a with
      | .cont a' => a'
      | .quit => a)
    app

/-! ### Watcher channel and the main-loop iteration (`run_app.rs` lines 28–51) -/

/-- Model of a `notify::Event`: the affected paths. -/
structure NotifyEvent where
  paths : List String
deriving DecidableEq, Repr

/-- One message of the watcher channel: `Result<notify::Event, notify::Error>`. -/
abbrev Msg := Except Unit NotifyEvent

/-- Embeds the watcher setup of `run_app.rs` (lines 30–36):
`RecommendedWatcher::new(..).unwrap()` then `watcher.watch(..).unwrap()`;
each `unwrap` on an `Err` is a panic (`error`), which terminates the process
with a non-zero exit. -/
def run_app_init (newRes watchRes : Except Unit Unit) : Except Unit Unit :=
  match newRes with
  | .error e => .error e
  | .ok _ => watchRes

/-- Embeds the channel drain of `run_app.rs` (lines 39–41): `try_next()`
removes at most the first pending message; only a message matching
`Ok(Some(Ok(event)))` is applied, via
`update_application_content(event.paths.get(0).unwrap())` (a panic —
`error` — when the event carries no path); an `Err` message is consumed and
discarded. -/
def drainStep (scan : List Entry) (ch : List Msg) (app : App) :
    Except Unit (List Msg × App) :=
  match ch with
  | [] => .ok ([], app)
  | m :: rest =>
    match m with
    | .ok ev =>
      match ev.paths with
      | [] => .error ()
      | p :: _ => .ok (rest, app.update_application_content scan p)
    | .error _ => .ok (rest, app)

/-- Modelled from the spec: `create_selection_list_from_vector` is not among
the provided source files; per §9's duck-typed "displayable list item" note
it renders a backing vector through `convert_to_list_item` (its block and
rectangle arguments only style the widget and are outside the state model). -/
def create_selection_list_from_vector (disp : α → String) (v : List α) : List ListItem :=
  convert_to_list_item disp v

/-- Modelled from the spec: the `Display` rendering of an `Entry` (defined in
the missing `app.rs`) is its display label, its name (§3). -/
def Entry.display (e : Entry) : String :=
  e.name

/-- The list rows of one drawn frame, one field per panel of `run_app.rs::ui`. -/
structure Frame where
  repositoryItems : List ListItem
  logItems : List ListItem
  tagItems : List ListItem
  branchItems : List ListItem
deriving DecidableEq, Repr

/-- Embeds the four panel constructions of `run_app.rs::ui` (lines 167–190):
each panel's rows come from `create_selection_list_from_vector` over the
corresponding backing vector. -/
def renderFrame (app : App) : Frame :=
  { repositoryItems := create_selection_list_from_vector Entry.display app.repositories.items
    logItems := create_selection_list_from_vector id app.logs.items
    tagItems := create_selection_list_from_vector id app.tags.items
    branchItems := create_selection_list_from_vector id app.branches.items }

/-- Embeds one iteration of the main loop of `run_app.rs` (lines 38–123), in
source order: drain at most one channel message and apply it, then draw the
frame, then read and dispatch the key event (if one arrived within the poll
timeout).  The scanner capability's result is passed in as `scan`. -/
def loopIter (scan : List Entry) (ch : List Msg) (app : App) (key : Option KeyCode) :
    Except Unit (List Msg × Frame × KeyResult) :=
  match drainStep scan ch app with
  | .error e => .error e
  | .ok (ch', app') =>
    let frame := renderFrame app'
    let res :=
      match key with
      | none => .cont app'
      | some k => handleKey k app'
    .ok (ch', frame, res)

/-! ### Concrete fixtures used by witnesses and counterexamples -/

/-- Extract the continued state of a dispatch outcome (`d` when it was `quit`). -/
def contOf (r : KeyResult) (d : App) : App :=
  match r with
  | .cont a => a
  | .quit => d

/-- A repository handle whose `branches(None)` call fails. -/
def badBranchesRepo : Repo :=
  { tagEntries := [], tagNamesFails := false,
    branchesRes := .error (), headRes := .ok (some "refs/heads/main") }

/-- A repository handle whose HEAD resolution fails. -/
def badHeadRepo : Repo :=
  { tagEntries := [], tagNamesFails := false,
    branchesRes := .ok [], headRes := .error () }

/-- A repository handle with one version-like tag and one non-matching tag. -/
def tagRepo : Repo :=
  { tagEntries := [some "1.0.0", some "abc"], tagNamesFails := false,
    branchesRes := .ok [], headRes := .ok (some "refs/heads/main") }

/-- A plain (non-repository) entry named `a`. -/
def entA : Entry :=
  { name := "a", is_repository := false, active_branch := "", tags := [], branches := [] }

/-- A plain (non-repository) entry named `ab`. -/
def entAB : Entry :=
  { name := "ab", is_repository := false, active_branch := "", tags := [], branches := [] }

/-- A Normal-mode state over the root `/r` with no entries. -/
def app0 : App :=
  { path := "/r", repositories := ⟨[], none⟩, unfiltered := [],
    branches := ⟨[], none⟩, tags := ⟨[], none⟩, logs := ⟨[], none⟩,
    selection := .Repositories, input_mode := .Normal, input := "" }

/-- A Search-mode state whose backing list holds the single entry `a`. -/
def searchApp : App :=
  { path := "/r", repositories := ⟨[entA], none⟩, unfiltered := [entA],
    branches := ⟨[], none⟩, tags := ⟨[], none⟩, logs := ⟨[], none⟩,
    selection := .Repositories, input_mode := .Search, input := "" }

/-- A Search-mode state whose backing list holds the single entry `ab`. -/
def searchApp2 : App :=
  { path := "/r", repositories := ⟨[entAB], none⟩, unfiltered := [entAB],
    branches := ⟨[], none⟩, tags := ⟨[], none⟩, logs := ⟨[], none⟩,
    selection := .Repositories, input_mode := .Search, input := "" }

/-- The state reached from `app0` by applying a change notification for
`/r/x` with an empty scan result. -/
def c4app : App :=
  app0.update_application_content [] "/r/x"

/-! ### Helper lemmas -/

/-- Membership in the tag-pushing fold of `get_repository_tags`. -/
theorem mem_pushFold (entries : List (Option String)) (acc : List String) (t : String) :
    t ∈ entries.foldl
        (fun tags x =>
          match x with
          | some tag => tags ++ [tag]
          | none => tags)
        acc →
    t ∈ acc ∨ some t ∈ entries := by
  induction entries generalizing acc with
  | nil => intro h; exact .inl h
  | cons x xs ih =>
    intro h
    cases x with
    | some tag =>
      rcases ih (acc ++ [tag]) h with h1 | h2
      · rcases List.mem_append.mp h1 with h3 | h4
        · exact .inl h3
        · simp at h4
          right; simp [h4]
      · right; simp [h2]
    | none =>
      rcases ih acc h with h1 | h2
      · exact .inl h1
      · right; simp [h2]

/-- Every string produced by `get_repository_tags` matches the glob pattern. -/
theorem tags_subset_glob (r : Repo) (t : String) :
    t ∈ get_repository_tags (some r) → fnmatch tagPattern t = true := by
  intro h
  unfold get_repository_tags Repo.tag_names at h
  by_cases hf : r.tagNamesFails
  · simp [hf] at h
  · simp [hf] at h
    rcases mem_pushFold _ [] t h with h1 | h2
    · simp at h1
    · have h3 := List.mem_filter.mp h2
      simpa using h3.2

/-- The channel after one drain step is always the tail of the channel. -/
theorem drainStep_tail (scan : List Entry) (ch : List Msg) (app : App)
    (ch' : List Msg) (app' : App) :
    drainStep scan ch app = .ok (ch', app') → ch' = ch.tail := by
  intro h
  cases ch with
  | nil => simp [drainStep] at h; simp [h.1]
  | cons m rest =>
    cases m with
    | ok ev =>
      cases hp : ev.paths with
      | nil => simp [drainStep, hp] at h
      | cons p ps => simp [drainStep, hp] at h; simp [h.1]
    | error e => simp [drainStep] at h; simp [h.1]

/-! ### Claim theorems -/

/-- C7: when a path is not a repository (`Repository::open` failed, so the
inspection capability holds `None`), the remaining inspection fields
short-circuit to empty: `get_repository` yields `None`, `get_repository_tags`
returns the empty list, `get_repository_branches` returns (without panicking)
the empty list, and `get_repository_active_branch` returns the empty string. -/
theorem c7_none_short_circuits :
    get_repository (.error ()) = none ∧
    get_repository_tags none = [] ∧
    get_repository_branches none = .ok [] ∧
    get_repository_active_branch none = .ok "" :=
  ⟨rfl, rfl, rfl, rfl⟩

/-- C2 (code bug): evaluating the inspection functions at failing inputs shows
the failure is not absorbed.  When `branches(None)` fails,
`get_repository_branches` panics (the `Err` is converted to `None` and then
immediately `unwrap`ped); when HEAD resolution fails,
`get_repository_active_branch` panics on `head().unwrap()`.  Only the
`Repository::open` failure itself is absorbed (`is_repository = false`). -/
theorem c2_inspection_panics :
    get_repository_branches (some badBranchesRepo) = .error () ∧
    get_repository_active_branch (some badHeadRepo) = .error () ∧
    is_repository (.error ()) = false ∧
    get_repository (.error ()) = none :=
  ⟨rfl, rfl, rfl, rfl⟩

/-- C9: `get_repository_tags` returns only tag names that match the glob
pattern `[0-99999999].[0-99999999].[0-99999999]` passed to `tag_names`; a tag
whose name does not match the pattern is never included in the result. -/
theorem c9_tags_match_glob (r : Repo) (t : String) :
    (t ∈ get_repository_tags (some r) → fnmatch tagPattern t = true) ∧
    (fnmatch tagPattern t = false → t ∉ get_repository_tags (some r)) := by
  refine ⟨tags_subset_glob r t, fun hf hm => ?_⟩
  rw [tags_subset_glob r t hm] at hf
  exact absurd hf (by simp)

/-- C9 witness: in a repository holding the tags `1.0.0` and `abc`, the
theorem applies concretely — `1.0.0` is in the result and matches the glob,
while `abc` fails the glob and is excluded. -/
theorem c9_tags_match_glob_witness :
    fnmatch tagPattern "1.0.0" = true ∧ "abc" ∉ get_repository_tags (some tagRepo) :=
  ⟨(c9_tags_match_glob tagRepo "1.0.0").1 (by decide),
   (c9_tags_match_glob tagRepo "abc").2 (by decide)⟩

/-- C10: `convert_to_list_item` renders a backing vector in reverse order —
it equals the reversed image of the vector, so the first rendered row is the
vector's last element — and the four panels of `ui` (repositories, logs,
tags, branches) all render through it uniformly. -/
theorem c10_convert_reverses (α : Type) (disp : α → String) (v : List α) :
    convert_to_list_item disp v = (v.map (fun f => itemOf (disp f))).reverse ∧
    (convert_to_list_item disp v).head? = v.getLast?.map (fun f => itemOf (disp f)) ∧
    ∀ app : App,
      renderFrame app =
        { repositoryItems := convert_to_list_item Entry.display app.repositories.items
          logItems := convert_to_list_item id app.logs.items
          tagItems := convert_to_list_item id app.tags.items
          branchItems := convert_to_list_item id app.branches.items } := by
  refine ⟨?_, ?_, fun app => rfl⟩
  · simp [convert_to_list_item, List.map_reverse]
  · simp [convert_to_list_item, List.head?_map, List.head?_reverse, List.getLast?_map]

/-- C3 counterexample: a runtime error notification delivered through the
watcher channel does not terminate the process — the drain step consumes it
(`try_next` removes it, the `Ok(Some(Ok(event)))` pattern fails to match),
leaves the state unchanged, and the iteration proceeds normally to draw a
frame, contradicting the claim that every watch-capability error is fatal. -/
theorem c3_counterexample :
    drainStep [] [Except.error ()] app0 = .ok ([], app0) ∧
    loopIter [] [Except.error ()] app0 none = .ok ([], renderFrame app0, .cont app0) :=
  ⟨rfl, rfl⟩

/-- C3 (amended): watcher initialization failures are fatal — a failing
`RecommendedWatcher::new` or a failing `watcher.watch` panics (`error`),
terminating the process with a non-zero exit — but a runtime error
notification drained from the channel is consumed and silently discarded,
leaving the application state unchanged. -/
theorem c3_amended :
    (∀ w : Except Unit Unit, run_app_init (.error ()) w = .error ()) ∧
    run_app_init (.ok ()) (.error ()) = .error () ∧
    (∀ (scan : List Entry) (e : Unit) (tail : List Msg) (app : App),
      drainStep scan (.error e :: tail) app = .ok (tail, app)) :=
  ⟨fun _ => rfl, rfl, fun _ _ _ _ => rfl⟩

/-- C4: in one iteration of the main loop, at most one pending notification
is drained — the resulting channel is exactly the tail of the incoming one,
and an empty channel proceeds without blocking — and its application to the
state produces the state `app'` from which the frame is drawn and to which
the key event of the same iteration is dispatched. -/
theorem c4_loop_ordering (scan : List Entry) (ch : List Msg) (app : App)
    (key : Option KeyCode) (ch' : List Msg) (frame : Frame) (res : KeyResult) :
    loopIter scan ch app key = .ok (ch', frame, res) →
    ∃ app', drainStep scan ch app = .ok (ch', app') ∧
      frame = renderFrame app' ∧
      res = key.elim (.cont app') (fun k => handleKey k app') ∧
      ch' = ch.tail ∧
      ch.length ≤ ch'.length + 1 := by
  intro h
  unfold loopIter at h
  cases hd : drainStep scan ch app with
  | error e => rw [hd] at h; exact absurd h (by simp)
  | ok pr =>
    obtain ⟨c2, a2⟩ := pr
    rw [hd] at h
    simp at h
    obtain ⟨h1, h2, h3⟩ := h
    have ht : c2 = ch.tail := drainStep_tail scan ch app c2 a2 hd
    have hch : ch' = ch.tail := by rw [← h1, ht]
    refine ⟨a2, ?_, h2.symm, ?_, hch, ?_⟩
    · rw [h1]
    · cases key with
      | none => simpa using h3.symm
      | some k => simpa using h3.symm
    · rw [hch]
      cases ch with
      | nil => simp
      | cons m rest => simp

/-- C4 witness: with one pending notification for `/r/x`, an empty scan
result and the key `r`, the iteration drains exactly that message, draws the
frame of the updated state `c4app`, and dispatches the key against `c4app`. -/
theorem c4_loop_ordering_witness :
    ∃ app', drainStep [] ([Except.ok ⟨["/r/x"]⟩] : List Msg) app0 = .ok ([], app') ∧
      renderFrame c4app = renderFrame app' ∧
      KeyResult.cont (c4app.change_selection .Repositories) =
        (some (KeyCode.char 'r')).elim (.cont app') (fun k => handleKey k app') ∧
      ([] : List Msg) = ([Except.ok ⟨["/r/x"]⟩] : List Msg).tail ∧
      ([Except.ok ⟨["/r/x"]⟩] : List Msg).length ≤ ([] : List Msg).length + 1 :=
  c4_loop_ordering [] ([Except.ok ⟨["/r/x"]⟩] : List Msg) app0 (some (.char 'r')) []
    (renderFrame c4app) (.cont (c4app.change_selection .Repositories)) (by decide)

/-- C6: in Normal mode, pressing `$` never quits, enters Command mode exactly
when the current `Selection` is `Repositories`, never changes the
`Selection`, and is a complete no-op when the `Selection` is `Branches` or
`Tags`. -/
theorem c6_command_iff_repositories (app : App) (h : app.input_mode = .Normal) :
    handleKey (.char '$') app ≠ .quit ∧
    ((contOf (handleKey (.char '$') app) app).input_mode = .Command ↔
      app.selection = .Repositories) ∧
    (contOf (handleKey (.char '$') app) app).selection = app.selection ∧
    (app.selection ≠ .Repositories → contOf (handleKey (.char '$') app) app = app) := by
  obtain ⟨p, rp, uf, br, tg, lg, sel, im, inp⟩ := app
  cases im with
  | Normal =>
    by_cases hs : sel = Selection.Repositories <;>
      simp [handleKey, contOf, hs]
  | Editing => exact absurd h (by simp)
  | Search => exact absurd h (by simp)
  | Command => exact absurd h (by simp)

/-- C6 witness: applying the theorem at a Normal-mode state whose `Selection`
is `Repositories`. -/
theorem c6_command_iff_repositories_witness :
    handleKey (.char '$') app0 ≠ .quit ∧
    ((contOf (handleKey (.char '$') app0) app0).input_mode = .Command ↔
      app0.selection = .Repositories) ∧
    (contOf (handleKey (.char '$') app0) app0).selection = app0.selection ∧
    (app0.selection ≠ .Repositories → contOf (handleKey (.char '$') app0) app0 = app0) :=
  c6_command_iff_repositories app0 rfl

/-- C5: the key dispatcher is a total function, and every `(mode, key)` pair
without an explicit arm is a no-op: when `listedKey` does not list the key
for the active mode, the dispatch continues with the state unchanged (in
particular it neither quits nor reaches any error outcome). -/
theorem c5_unlisted_keys_noop (app : App) (key : KeyCode)
    (h : listedKey app.input_mode key = false) :
    handleKey key app = .cont app := by
  obtain ⟨p, rp, uf, br, tg, lg, sel, im, inp⟩ := app
  cases im <;> cases key <;>
    first
      | rfl
      | (simp only [listedKey] at h
         simp only [handleKey]
         split <;> simp_all)
      | simp_all [listedKey]

/-- C5 witness: an unmapped key (`other`) in Normal mode leaves the state
unchanged. -/
theorem c5_unlisted_keys_noop_witness :
    listedKey app0.input_mode .other = false ∧ handleKey .other app0 = .cont app0 :=
  ⟨by decide, c5_unlisted_keys_noop app0 .other (by decide)⟩

/-- C8 counterexample: in Search mode, the printable key `r` is appended to
the buffer but also changes another part of the state — the visible
repositories list is re-filtered (here from `[entA]` to `[]`) — refuting
"changes no other part of the state". -/
theorem c8_counterexample :
    searchApp.input_mode = .Search ∧
    (contOf (handleKey (.char 'r') searchApp) searchApp).input = "r" ∧
    (contOf (handleKey (.char 'r') searchApp) searchApp).repositories.items = [] ∧
    searchApp.repositories.items = [entA] ∧
    ([] : List Entry) ≠ [entA] := by decide

/-- C8 (amended): in Editing, Search or Command mode a printable key is
appended to the input buffer, the `Selection` is unchanged, the mode is
unchanged and the application does not terminate; in Editing and Command no
other part of the state changes, while in Search the repositories list is
additionally re-filtered by the new buffer with its selection index reset. -/
theorem c8_mode_isolation_amended (app : App) (c : Char) (h : app.input_mode ≠ .Normal) :
    handleKey (.char c) app ≠ .quit ∧
    (contOf (handleKey (.char c) app) app).input = app.input.push c ∧
    (contOf (handleKey (.char c) app) app).selection = app.selection ∧
    (contOf (handleKey (.char c) app) app).input_mode = app.input_mode ∧
    (app.input_mode ≠ .Search →
      contOf (handleKey (.char c) app) app = { app with input := app.input.push c }) ∧
    (app.input_mode = .Search →
      contOf (handleKey (.char c) app) app =
        { app with input := app.input.push c,
                   repositories := ⟨filterEntries app.unfiltered (app.input.push c), none⟩ }) := by
  obtain ⟨p, rp, uf, br, tg, lg, sel, im, inp⟩ := app
  cases im with
  | Normal => exact absurd rfl h
  | Editing =>
    exact ⟨by simp [handleKey], rfl, rfl, rfl, fun _ => rfl, fun hs => absurd hs (by simp)⟩
  | Search =>
    exact ⟨by simp [handleKey], rfl, rfl, rfl, fun hs => absurd rfl hs, fun _ => rfl⟩
  | Command =>
    exact ⟨by simp [handleKey], rfl, rfl, rfl, fun _ => rfl, fun hs => absurd hs (by simp)⟩

/-- C8 witness: applying the theorem to the Search-mode state `searchApp`
with the printable key `x`. -/
theorem c8_mode_isolation_amended_witness :
    handleKey (.char 'x') searchApp ≠ .quit ∧
    (contOf (handleKey (.char 'x') searchApp) searchApp).input = searchApp.input.push 'x' ∧
    (contOf (handleKey (.char 'x') searchApp) searchApp).selection = searchApp.selection ∧
    (contOf (handleKey (.char 'x') searchApp) searchApp).input_mode = searchApp.input_mode ∧
    (searchApp.input_mode ≠ .Search →
      contOf (handleKey (.char 'x') searchApp) searchApp =
        { searchApp with input := searchApp.input.push 'x' }) ∧
    (searchApp.input_mode = .Search →
      contOf (handleKey (.char 'x') searchApp) searchApp =
        { searchApp with
            input := searchApp.input.push 'x',
            repositories :=
              ⟨filterEntries searchApp.unfiltered (searchApp.input.push 'x'), none⟩ }) :=
  c8_mode_isolation_amended searchApp 'x' (by decide)

/-- C1 counterexample: starting in Search mode over the backing list `[entAB]`
with an empty buffer, the keystrokes `x` then Backspace leave the buffer
empty, yet the visible repositories list is `[]` while the filter of the
backing list by the current (empty) buffer is `[entAB]` — Backspace did not
re-run the filter, refuting the claimed invariant. -/
theorem c1_counterexample :
    searchApp2.input_mode = .Search ∧
    (applyKeys [.char 'x', .backspace] searchApp2).input_mode = .Search ∧
    (applyKeys [.char 'x', .backspace] searchApp2).input = "" ∧
    (applyKeys [.char 'x', .backspace] searchApp2).repositories.items = [] ∧
    filterEntries (applyKeys [.char 'x', .backspace] searchApp2).unfiltered
      (applyKeys [.char 'x', .backspace] searchApp2).input = [entAB] ∧
    ([] : List Entry) ≠ [entAB] := by decide

/-- C1 (amended): in Search mode, Backspace removes the last character of the
buffer but does not re-run the filter, leaving the visible repositories list
untouched; each printable keystroke, by contrast, re-runs the filter, so the
visible list equals the filter of the unfiltered backing list by the buffer
as of the last printable keystroke (not necessarily the current buffer). -/
theorem c1_backspace_no_refilter (app : App) (h : app.input_mode = .Search) :
    handleKey .backspace app = .cont { app with input := inputPop app.input } ∧
    ∀ c : Char, handleKey (.char c) app =
      .cont { app with
                input := app.input.push c,
                repositories := ⟨filterEntries app.unfiltered (app.input.push c), none⟩ } := by
  obtain ⟨p, rp, uf, br, tg, lg, sel, im, inp⟩ := app
  cases im with
  | Search => exact ⟨rfl, fun c => rfl⟩
  | Normal => exact absurd h (by simp)
  | Editing => exact absurd h (by simp)
  | Command => exact absurd h (by simp)

/-- C1 witness: applying the theorem to `searchApp2` and the key `x`. -/
theorem c1_backspace_no_refilter_witness :
    handleKey .backspace searchApp2 =
      .cont { searchApp2 with input := inputPop searchApp2.input } ∧
    handleKey (.char 'x') searchApp2 =
      .cont { searchApp2 with
                input := searchApp2.input.push 'x',
                repositories :=
                  ⟨filterEntries searchApp2.unfiltered (searchApp2.input.push 'x'), none⟩ } :=
  ⟨(c1_backspace_no_refilter searchApp2 rfl).1,
   (c1_backspace_no_refilter searchApp2 rfl).2 'x'⟩
